import Mathlib

/-!
Verification of the event-correlation core of `analyze_lag.py`.

The Python source extracts two event streams from a log file and correlates
them with one of two strategies:

* `match_by_sequence`   - exact join on the optional `Seq` field;
* `match_by_timestamp_improved` - greedy windowed nearest-neighbour
  assignment with a composite score.

The shallow embedding below mirrors the Python functions over typed events.
Python floats are modelled as rationals (`ℚ`), the millisecond timestamps as
integers (`ℤ`), and the optional sequence field as `Option ℕ` (the regex
yields either a digit string or the empty string).  Python dictionaries are
modelled as insertion-ordered association lists with in-place overwrite
(`dictInsert`), which is exactly the observable behaviour of a `dict`.
`list.sort()` (a stable sort by the lexicographic tuple order) is modelled
with `List.insertionSort`, which is also stable; since the tuple orders used
are antisymmetric the sorted list is uniquely determined either way.
-/

namespace AnalyzeLag

/-- A dispatch event, as extracted by the dispatch regex: groups
`(beat, audio_time, dispatch_time, seq)`, already converted by
`float`/`int` the way the matchers convert them. -/
structure DispatchEvent where
  beat : ℚ
  audioTime : ℚ
  dispatchTime : ℤ
  seq : Option ℕ
deriving DecidableEq, Repr

/-- A render event, as extracted by the render regex: groups
`(beat, render_time, seq)`. -/
structure RenderEvent where
  beat : ℚ
  renderTime : ℤ
  seq : Option ℕ
deriving DecidableEq, Repr

/-- Python's `abs` on a float, modelled on `ℚ`. -/
def qabs (x : ℚ) : ℚ := if x < 0 then -x else x

/-! ## Python `dict` model

A Python `dict` is an insertion-ordered map; assigning to an existing key
overwrites the stored value in place, assigning to a fresh key appends. -/

/-- `d[k] = v` on a Python dict: replace the first entry with key `k`
in place, otherwise append a new entry. -/
def dictInsert {V : Type} : List (ℕ × V) → ℕ → V → List (ℕ × V)
  | [], k, v => [(k, v)]
  | p :: m, k, v => if p.1 = k then (k, v) :: m else p :: dictInsert m k v

/-- `d.get(k)` on a Python dict. -/
def dictLookup {V : Type} (m : List (ℕ × V)) (k : ℕ) : Option V :=
  (m.find? (fun p => p.1 == k)).map (fun p => p.2)

/-- `d.keys()` on a Python dict (in insertion order). -/
def dictKeys {V : Type} (m : List (ℕ × V)) : List ℕ := m.map (fun p => p.1)

/-! ## Sequence matcher (`match_by_sequence`) -/

/-- One iteration of the loop
`for beat, audio_time, dispatch_time, seq in dispatches: if seq: ...`. -/
def dispatchMapStep (m : List (ℕ × (ℚ × ℤ × ℚ))) (d : DispatchEvent) :
    List (ℕ × (ℚ × ℤ × ℚ)) :=
  match d.seq with
  | some s => dictInsert m s (d.beat, d.dispatchTime, d.audioTime)
  | none => m

/-- `dispatch_by_seq`: sequence id ↦ `(beat, dispatch_time, audio_time)`. -/
def dispatch_by_seq (dispatches : List DispatchEvent) : List (ℕ × (ℚ × ℤ × ℚ)) :=
  dispatches.foldl dispatchMapStep []

/-- One iteration of the loop
`for beat, render_time, seq in renders: if seq: ...`. -/
def renderMapStep (m : List (ℕ × (ℚ × ℤ))) (r : RenderEvent) :
    List (ℕ × (ℚ × ℤ)) :=
  match r.seq with
  | some s => dictInsert m s (r.beat, r.renderTime)
  | none => m

/-- `render_by_seq`: sequence id ↦ `(beat, render_time)`. -/
def render_by_seq (renders : List RenderEvent) : List (ℕ × (ℚ × ℤ)) :=
  renders.foldl renderMapStep []

/-- Accumulator of the sequence-matcher loop: the three lists
`lags`, `matched_beats` (entries `(beat, dispatch_time, render_time, lag)`),
and `unmatched` (entries `(beat, dispatch_time)`). -/
structure SeqAcc where
  lags : List ℤ
  matched : List (ℚ × ℤ × ℤ × ℤ)
  unmatched : List (ℚ × ℤ)
deriving DecidableEq, Repr

/-- The body of `for seq in sorted(dispatch_by_seq.keys())`. -/
def seqStep (dmap : List (ℕ × (ℚ × ℤ × ℚ))) (rmap : List (ℕ × (ℚ × ℤ)))
    (acc : SeqAcc) (s : ℕ) : SeqAcc :=
  match dictLookup dmap s with
  | none => acc
  | some (dBeat, dTime, _) =>
    match dictLookup rmap s with
    | some (rBeat, rTime) =>
      if qabs (dBeat - rBeat) < 1/100 then
        ⟨acc.lags ++ [rTime - dTime],
         acc.matched ++ [(dBeat, dTime, rTime, rTime - dTime)],
         acc.unmatched⟩
      else acc
    | none => ⟨acc.lags, acc.matched, acc.unmatched ++ [(dBeat, dTime)]⟩

/-- `sorted(dispatch_by_seq.keys())`. -/
def seqSortedKeys (dispatches : List DispatchEvent) : List ℕ :=
  List.insertionSort (· ≤ ·) (dictKeys (dispatch_by_seq dispatches))

/-- The whole loop of `match_by_sequence` over the sorted dispatch ids. -/
def seqRun (dispatches : List DispatchEvent) (renders : List RenderEvent) : SeqAcc :=
  (seqSortedKeys dispatches).foldl
    (seqStep (dispatch_by_seq dispatches) (render_by_seq renders)) ⟨[], [], []⟩

/-- `match_by_sequence(dispatches, renders)`:
returns `(lags, matched_beats, unmatched)`. -/
def match_by_sequence (dispatches : List DispatchEvent)
    (renders : List RenderEvent) :
    List ℤ × List (ℚ × ℤ × ℤ × ℤ) × List (ℚ × ℤ) :=
  ((seqRun dispatches renders).lags, (seqRun dispatches renders).matched,
    (seqRun dispatches renders).unmatched)

/-- The matched pairs the sequence-matcher loop emits for one id `s`
(a singleton when `s` is in both maps and the beats agree, else empty). -/
def seqPairsFor (dmap : List (ℕ × (ℚ × ℤ × ℚ))) (rmap : List (ℕ × (ℚ × ℤ)))
    (s : ℕ) : List (ℚ × ℤ × ℤ × ℤ) :=
  match dictLookup dmap s with
  | none => []
  | some (dBeat, dTime, _) =>
    match dictLookup rmap s with
    | some (rBeat, rTime) =>
      if qabs (dBeat - rBeat) < 1/100 then [(dBeat, dTime, rTime, rTime - dTime)]
      else []
    | none => []

/-- The unmatched-dispatch entries the sequence-matcher loop emits for one
id `s` (a singleton when `s` is a dispatch id with no render counterpart). -/
def seqUnmatchedFor (dmap : List (ℕ × (ℚ × ℤ × ℚ))) (rmap : List (ℕ × (ℚ × ℤ)))
    (s : ℕ) : List (ℚ × ℤ) :=
  match dictLookup dmap s with
  | none => []
  | some (dBeat, dTime, _) =>
    match dictLookup rmap s with
    | some _ => []
    | none => [(dBeat, dTime)]

/-- The lags the sequence-matcher loop emits for one id `s`. -/
def seqLagsFor (dmap : List (ℕ × (ℚ × ℤ × ℚ))) (rmap : List (ℕ × (ℚ × ℤ)))
    (s : ℕ) : List ℤ :=
  (seqPairsFor dmap rmap s).map (fun q => q.2.2.2)

/-! ## Window matcher (`match_by_timestamp_improved`) -/

/-- `MAX_TIME_WINDOW_MS = 200`. -/
def MAX_TIME_WINDOW_MS : ℤ := 200

/-- Python tuple order on the render tuples `(render_time, beat)`. -/
def rendLe (a b : ℤ × ℚ) : Prop :=
  a.1 < b.1 ∨ (a.1 = b.1 ∧ a.2 ≤ b.2)

instance : DecidableRel rendLe := fun a b => by unfold rendLe; infer_instance

instance : IsTrans (ℤ × ℚ) rendLe where
  trans a b c hab hbc := by
    rcases hab with h | ⟨h1, h2⟩
    · rcases hbc with h' | ⟨h1', _⟩
      · exact Or.inl (h.trans h')
      · exact Or.inl (h1' ▸ h)
    · rcases hbc with h' | ⟨h1', h2'⟩
      · exact Or.inl (h1 ▸ h')
      · exact Or.inr ⟨h1.trans h1', h2.trans h2'⟩

instance : IsTotal (ℤ × ℚ) rendLe where
  total a b := by
    rcases lt_trichotomy a.1 b.1 with h | h | h
    · exact Or.inl (Or.inl h)
    · rcases le_total a.2 b.2 with h2 | h2
      · exact Or.inl (Or.inr ⟨h, h2⟩)
      · exact Or.inr (Or.inr ⟨h.symm, h2⟩)
    · exact Or.inr (Or.inl h)

/-- Python tuple order on the dispatch tuples
`(dispatch_time, beat, audio_time)`. -/
def dispLe (a b : ℤ × ℚ × ℚ) : Prop :=
  a.1 < b.1 ∨ (a.1 = b.1 ∧ (a.2.1 < b.2.1 ∨ (a.2.1 = b.2.1 ∧ a.2.2 ≤ b.2.2)))

instance : DecidableRel dispLe := fun a b => by unfold dispLe; infer_instance

instance : IsTrans (ℤ × ℚ × ℚ) dispLe where
  trans a b c hab hbc := by
    rcases hab with h | ⟨h1, hin⟩
    · rcases hbc with h' | ⟨h1', _⟩
      · exact Or.inl (h.trans h')
      · exact Or.inl (h1' ▸ h)
    · rcases hbc with h' | ⟨h1', hin'⟩
      · exact Or.inl (h1 ▸ h')
      · refine Or.inr ⟨h1.trans h1', ?_⟩
        rcases hin with h2 | ⟨h2, h3⟩
        · rcases hin' with h2' | ⟨h2', _⟩
          · exact Or.inl (h2.trans h2')
          · exact Or.inl (h2' ▸ h2)
        · rcases hin' with h2' | ⟨h2', h3'⟩
          · exact Or.inl (h2 ▸ h2')
          · exact Or.inr ⟨h2.trans h2', h3.trans h3'⟩

instance : IsTotal (ℤ × ℚ × ℚ) dispLe where
  total a b := by
    rcases lt_trichotomy a.1 b.1 with h | h | h
    · exact Or.inl (Or.inl h)
    · rcases lt_trichotomy a.2.1 b.2.1 with h2 | h2 | h2
      · exact Or.inl (Or.inr ⟨h, Or.inl h2⟩)
      · rcases le_total a.2.2 b.2.2 with h3 | h3
        · exact Or.inl (Or.inr ⟨h, Or.inr ⟨h2, h3⟩⟩)
        · exact Or.inr (Or.inr ⟨h.symm, Or.inr ⟨h2.symm, h3⟩⟩)
      · exact Or.inr (Or.inr ⟨h.symm, Or.inl h2⟩)
    · exact Or.inr (Or.inl h)

/-- `dispatch_events`, built and then sorted (`dispatch_events.sort()`). -/
def sortedDispatchEvents (dispatches : List DispatchEvent) : List (ℤ × ℚ × ℚ) :=
  List.insertionSort dispLe
    (dispatches.map (fun d => (d.dispatchTime, d.beat, d.audioTime)))

/-- `render_events`, built and then sorted (`render_events.sort()`). -/
def sortedRenderEvents (renders : List RenderEvent) : List (ℤ × ℚ) :=
  List.insertionSort rendLe (renders.map (fun r => (r.renderTime, r.beat)))

/-- `score = time_diff + (beat_diff * 50)` for the render tuple `r`. -/
def scoreOf (dTime : ℤ) (dBeat : ℚ) (r : ℤ × ℚ) : ℚ :=
  ((r.1 - dTime : ℤ) : ℚ) + qabs (r.2 - dBeat) * 50

/-- `best_match = (i, r_time, r_beat, time_diff)`, paired in one record with
the running `best_score` (in the Python loop the two variables are always
updated together). -/
structure Cand where
  idx : ℕ
  rTime : ℤ
  rBeat : ℚ
  timeDiff : ℤ
  score : ℚ
deriving DecidableEq, Repr

/-- One iteration of the inner loop
`for i, (r_time, r_beat) in enumerate(render_events)`:
skip consumed indices, renders before the dispatch, and renders outside the
200 ms window; otherwise keep the candidate iff its score beats the running
best (`best_score` starts at `float('inf')`, modelled by `acc = none`). -/
def considerCandidate (dTime : ℤ) (dBeat : ℚ) (used : Finset ℕ)
    (acc : Option Cand) (p : ℕ × ℤ × ℚ) : Option Cand :=
  if p.1 ∈ used then acc
  else if p.2.1 < dTime then acc
  else if MAX_TIME_WINDOW_MS < p.2.1 - dTime then acc
  else
    let s := scoreOf dTime dBeat p.2
    match acc with
    | none => some ⟨p.1, p.2.1, p.2.2, p.2.1 - dTime, s⟩
    | some b => if s < b.score then some ⟨p.1, p.2.1, p.2.2, p.2.1 - dTime, s⟩ else acc

/-- The full inner loop: the best candidate for one dispatch event, or
`none` when no render is eligible. -/
def findBest (dTime : ℤ) (dBeat : ℚ) (renders : List (ℤ × ℚ))
    (used : Finset ℕ) : Option Cand :=
  renders.enum.foldl (considerCandidate dTime dBeat used) none

/-- State of the outer loop of the window matcher: the output lists plus
the `used_renders` index set. -/
structure WinState where
  lags : List ℤ
  matched : List (ℚ × ℤ × ℤ × ℤ)
  unmatched : List (ℚ × ℤ)
  used : Finset ℕ

/-- The body of `for d_time, d_beat, audio_time in dispatch_events`. -/
def winStep (renders : List (ℤ × ℚ)) (st : WinState) (d : ℤ × ℚ × ℚ) : WinState :=
  match findBest d.1 d.2.1 renders st.used with
  | some b =>
    ⟨st.lags ++ [b.timeDiff],
     st.matched ++ [(d.2.1, d.1, b.rTime, b.timeDiff)],
     st.unmatched,
     insert b.idx st.used⟩
  | none => ⟨st.lags, st.matched, st.unmatched ++ [(d.2.1, d.1)], st.used⟩

/-- Initial state: empty outputs, `used_renders = set()`. -/
def winInit : WinState := ⟨[], [], [], ∅⟩

/-- The outer loop run from a given state. -/
def winRunFrom (renders : List (ℤ × ℚ)) (st : WinState)
    (ds : List (ℤ × ℚ × ℚ)) : WinState :=
  ds.foldl (winStep renders) st

/-- The outer loop run from the initial state. -/
def winRun (renders : List (ℤ × ℚ)) (ds : List (ℤ × ℚ × ℚ)) : WinState :=
  winRunFrom renders winInit ds

/-- `match_by_timestamp_improved(dispatches, renders)`:
returns `(lags, matched_beats, unmatched)`. -/
def match_by_timestamp_improved (dispatches : List DispatchEvent)
    (renders : List RenderEvent) :
    List ℤ × List (ℚ × ℤ × ℤ × ℤ) × List (ℚ × ℤ) :=
  ((winRun (sortedRenderEvents renders) (sortedDispatchEvents dispatches)).lags,
   (winRun (sortedRenderEvents renders) (sortedDispatchEvents dispatches)).matched,
   (winRun (sortedRenderEvents renders) (sortedDispatchEvents dispatches)).unmatched)

/-- Eligibility of the indexed render tuple `p = (i, r_time, r_beat)` for a
dispatch at time `dTime` given the consumed index set: not yet consumed,
not before the dispatch, within the 200 ms window. -/
def EligP (dTime : ℤ) (used : Finset ℕ) (p : ℕ × ℤ × ℚ) : Prop :=
  p.1 ∉ used ∧ dTime ≤ p.2.1 ∧ p.2.1 - dTime ≤ MAX_TIME_WINDOW_MS

/-- What it means for `findBest` to return the right thing: `none` exactly
when no render is eligible, otherwise an eligible candidate of minimum
score whose index is least among the minimisers (the first one found under
ascending iteration). -/
def IsBestCandidate (renders : List (ℤ × ℚ)) (dTime : ℤ) (dBeat : ℚ)
    (used : Finset ℕ) : Option Cand → Prop
  | none => ∀ i r, renders[i]? = some r → ¬ EligP dTime used (i, r)
  | some b =>
    renders[b.idx]? = some (b.rTime, b.rBeat) ∧
    EligP dTime used (b.idx, b.rTime, b.rBeat) ∧
    b.timeDiff = b.rTime - dTime ∧
    b.score = scoreOf dTime dBeat (b.rTime, b.rBeat) ∧
    (∀ i r, renders[i]? = some r → EligP dTime used (i, r) →
      b.score ≤ scoreOf dTime dBeat r) ∧
    (∀ i r, renders[i]? = some r → EligP dTime used (i, r) →
      scoreOf dTime dBeat r = b.score → b.idx ≤ i)

/-! ## Statistics and the analysis driver (`parse_cursor_logs`) -/

/-- `0 <= lag < 16` (the "excellent" bucket test). -/
def isExcellent (l : ℤ) : Bool := decide (0 ≤ l ∧ l < 16)

/-- `16 <= lag < 50`. -/
def isGood (l : ℤ) : Bool := decide (16 ≤ l ∧ l < 50)

/-- `50 <= lag < 100`. -/
def isAcceptable (l : ℤ) : Bool := decide (50 ≤ l ∧ l < 100)

/-- `lag >= 100`. -/
def isPoor (l : ℤ) : Bool := decide (100 ≤ l)

/-- `lag < 0`. -/
def isNegative (l : ℤ) : Bool := decide (l < 0)

/-- `excellent = sum(1 for lag in lags if 0 <= lag < 16)`. -/
def excellentCount (lags : List ℤ) : ℕ := lags.countP isExcellent

/-- `good = sum(1 for lag in lags if 16 <= lag < 50)`. -/
def goodCount (lags : List ℤ) : ℕ := lags.countP isGood

/-- `acceptable = sum(1 for lag in lags if 50 <= lag < 100)`. -/
def acceptableCount (lags : List ℤ) : ℕ := lags.countP isAcceptable

/-- `poor = sum(1 for lag in lags if lag >= 100)`. -/
def poorCount (lags : List ℤ) : ℕ := lags.countP isPoor

/-- `negative = sum(1 for lag in lags if lag < 0)`. -/
def negativeCount (lags : List ℤ) : ℕ := lags.countP isNegative

/-- How many of the four histogram buckets a single lag value falls into. -/
def bucketCountFor (l : ℤ) : ℕ :=
  (if isExcellent l then 1 else 0) + (if isGood l then 1 else 0) +
    (if isAcceptable l then 1 else 0) + (if isPoor l then 1 else 0)

/-- The summary statistics the report prints for a non-empty lag list. -/
structure LagStats where
  matchedCount : ℕ
  unmatchedCount : ℕ
  best : ℤ
  worst : ℤ
  avgLag : ℚ
  excellent : ℕ
  good : ℕ
  acceptable : ℕ
  poor : ℕ
  negative : ℕ
deriving DecidableEq, Repr

/-- The statistics block of `parse_cursor_logs` (lines 56-80). -/
def computeStats (lags : List ℤ) (unmatched : List (ℚ × ℤ)) : LagStats where
  matchedCount := lags.length
  unmatchedCount := unmatched.length
  best := lags.min?.getD 0
  worst := lags.max?.getD 0
  avgLag := (lags.map (fun l => (l : ℚ))).sum / lags.length
  excellent := excellentCount lags
  good := goodCount lags
  acceptable := acceptableCount lags
  poor := poorCount lags
  negative := negativeCount lags

/-- The two correlation strategies. -/
inductive Strategy where
  | sequence
  | window
deriving DecidableEq, Repr

/-- `has_seq = dispatches[0][3] != ''` (the regex tuple always has four
groups, so the `len > 3` guard always passes): the strategy is chosen from
the first dispatch event alone. -/
def chooseStrategy : List DispatchEvent → Strategy
  | [] => .window
  | d0 :: _ => if d0.seq.isSome then .sequence else .window

/-- Dispatch of `parse_cursor_logs` to the selected matcher. -/
def runMatcher (dispatches : List DispatchEvent) (renders : List RenderEvent) :
    List ℤ × List (ℚ × ℤ × ℤ × ℤ) × List (ℚ × ℤ) :=
  match chooseStrategy dispatches with
  | .sequence => match_by_sequence dispatches renders
  | .window => match_by_timestamp_improved dispatches renders

/-- Outcome of the analysis path of `parse_cursor_logs`. -/
inductive AnalysisResult where
  | emptyDispatches
  | emptyRenders
  | noMatches
  | report (lags : List ℤ) (matched : List (ℚ × ℤ × ℤ × ℤ))
      (unmatched : List (ℚ × ℤ)) (stats : LagStats)
deriving DecidableEq

/-- The decision logic of `parse_cursor_logs` after event extraction
(lines 30-80): bail out on an empty stream, choose a strategy, bail out on
zero matches, otherwise report statistics. -/
def parse_cursor_logs_core (dispatches : List DispatchEvent)
    (renders : List RenderEvent) : AnalysisResult :=
  if dispatches.isEmpty then .emptyDispatches
  else if renders.isEmpty then .emptyRenders
  else
    let out := runMatcher dispatches renders
    if out.1.isEmpty then .noMatches
    else .report out.1 out.2.1 out.2.2 (computeStats out.1 out.2.2)

/-! ## Lemmas about the Python-dict model -/

lemma dictLookup_nil {V : Type} (k : ℕ) : dictLookup ([] : List (ℕ × V)) k = none := rfl

lemma dictLookup_cons {V : Type} (p : ℕ × V) (m : List (ℕ × V)) (k : ℕ) :
    dictLookup (p :: m) k = if p.1 = k then some p.2 else dictLookup m k := by
  by_cases h : p.1 = k
  · rw [if_pos h]
    unfold dictLookup
    rw [List.find?_cons_of_pos _ (by simpa using h)]
    rfl
  · rw [if_neg h]
    unfold dictLookup
    rw [List.find?_cons_of_neg _ (by simpa using h)]

lemma dictLookup_insert_self {V : Type} (m : List (ℕ × V)) (k : ℕ) (v : V) :
    dictLookup (dictInsert m k v) k = some v := by
  induction m with
  | nil => simp [dictInsert, dictLookup_cons]
  | cons p m ih =>
    by_cases h : p.1 = k
    · rw [dictInsert, if_pos h, dictLookup_cons]
      simp
    · rw [dictInsert, if_neg h, dictLookup_cons, if_neg h]
      exact ih

lemma dictLookup_insert_ne {V : Type} (m : List (ℕ × V)) (k k' : ℕ) (v : V)
    (h : k' ≠ k) :
    dictLookup (dictInsert m k v) k' = dictLookup m k' := by
  induction m with
  | nil => simp [dictInsert, dictLookup_cons, Ne.symm h]
  | cons p m ih =>
    by_cases hp : p.1 = k
    · rw [dictInsert, if_pos hp, dictLookup_cons, dictLookup_cons, if_neg (Ne.symm h),
        if_neg (fun hpk => h (hpk.symm.trans hp))]
    · rw [dictInsert, if_neg hp, dictLookup_cons, dictLookup_cons]
      by_cases hp' : p.1 = k'
      · rw [if_pos hp', if_pos hp']
      · rw [if_neg hp', if_neg hp']
        exact ih

lemma dictKeys_insert {V : Type} (m : List (ℕ × V)) (k : ℕ) (v : V) :
    dictKeys (dictInsert m k v) =
      if k ∈ dictKeys m then dictKeys m else dictKeys m ++ [k] := by
  induction m with
  | nil => simp [dictInsert, dictKeys]
  | cons p m ih =>
    by_cases hp : p.1 = k
    · rw [dictInsert, if_pos hp]
      have hk : k ∈ dictKeys (p :: m) := by simp [dictKeys, hp]
      rw [if_pos hk]
      simp [dictKeys, hp]
    · rw [dictInsert, if_neg hp]
      have hne : k ≠ p.1 := fun h => hp h.symm
      have hmem : (k ∈ dictKeys (p :: m)) ↔ (k ∈ dictKeys m) := by
        simp [dictKeys, hne]
      by_cases hk : k ∈ dictKeys m
      · rw [if_pos (hmem.mpr hk)]
        simp only [dictKeys, List.map_cons] at ih hk ⊢
        rw [ih, if_pos hk]
      · rw [if_neg (fun hc => hk (hmem.mp hc))]
        simp only [dictKeys, List.map_cons] at ih hk ⊢
        rw [ih, if_neg hk]
        simp

lemma dictKeys_insert_nodup {V : Type} (m : List (ℕ × V)) (k : ℕ) (v : V)
    (h : (dictKeys m).Nodup) : (dictKeys (dictInsert m k v)).Nodup := by
  rw [dictKeys_insert]
  split_ifs with hk
  · exact h
  · simpa [List.nodup_append] using ⟨h, hk⟩

lemma mem_dictKeys_iff {V : Type} (m : List (ℕ × V)) (k : ℕ) :
    k ∈ dictKeys m ↔ (dictLookup m k).isSome := by
  induction m with
  | nil => simp [dictKeys, dictLookup_nil]
  | cons p m ih =>
    rw [dictLookup_cons]
    by_cases h : p.1 = k
    · simp [dictKeys, h]
    · simp only [dictKeys, List.map_cons, List.mem_cons, if_neg h]
      constructor
      · rintro (rfl | hm)
        · exact absurd rfl h
        · exact ih.mp hm
      · intro hs
        exact Or.inr (ih.mpr hs)

lemma dispatch_by_seq_keys_nodup (dispatches : List DispatchEvent) :
    (dictKeys (dispatch_by_seq dispatches)).Nodup := by
  suffices h : ∀ (l : List DispatchEvent) (m : List (ℕ × (ℚ × ℤ × ℚ))),
      (dictKeys m).Nodup → (dictKeys (l.foldl dispatchMapStep m)).Nodup by
    exact h dispatches [] (by simp [dictKeys])
  intro l
  induction l with
  | nil => exact fun m h => h
  | cons d t ih =>
    intro m h
    rw [List.foldl_cons]
    refine ih _ ?_
    unfold dispatchMapStep
    cases d.seq with
    | none => exact h
    | some s => exact dictKeys_insert_nodup _ _ _ h

lemma dispatch_by_seq_lookup_aux (l : List DispatchEvent)
    (m : List (ℕ × (ℚ × ℤ × ℚ))) (s : ℕ) :
    dictLookup (l.foldl dispatchMapStep m) s =
      match (l.filter (fun d => d.seq == some s)).getLast? with
      | some d => some (d.beat, d.dispatchTime, d.audioTime)
      | none => dictLookup m s := by
  induction l generalizing m with
  | nil => rfl
  | cons d t ih =>
    rw [List.foldl_cons, ih]
    by_cases h : d.seq = some s
    · rw [List.filter_cons_of_pos (by simpa using h)]
      cases hT : t.filter (fun d => d.seq == some s) with
      | nil =>
        unfold dispatchMapStep
        rw [h, dictLookup_insert_self]
        simp
      | cons x xs =>
        cases hl : (x :: xs).getLast? with
        | none => simp at hl
        | some y => rw [List.getLast?_cons_cons, hl]
    · rw [List.filter_cons_of_neg (by simpa using h)]
      cases hT : t.filter (fun d => d.seq == some s) with
      | nil =>
        unfold dispatchMapStep
        cases hd : d.seq with
        | none => rfl
        | some k =>
          have hk : s ≠ k := fun he => h (by rw [hd, he])
          rw [dictLookup_insert_ne _ _ _ _ hk]
      | cons x xs => rfl

lemma render_by_seq_lookup_aux (l : List RenderEvent)
    (m : List (ℕ × (ℚ × ℤ))) (s : ℕ) :
    dictLookup (l.foldl renderMapStep m) s =
      match (l.filter (fun r => r.seq == some s)).getLast? with
      | some r => some (r.beat, r.renderTime)
      | none => dictLookup m s := by
  induction l generalizing m with
  | nil => rfl
  | cons r t ih =>
    rw [List.foldl_cons, ih]
    by_cases h : r.seq = some s
    · rw [List.filter_cons_of_pos (by simpa using h)]
      cases hT : t.filter (fun r => r.seq == some s) with
      | nil =>
        unfold renderMapStep
        rw [h, dictLookup_insert_self]
        simp
      | cons x xs =>
        cases hl : (x :: xs).getLast? with
        | none => simp at hl
        | some y => rw [List.getLast?_cons_cons, hl]
    · rw [List.filter_cons_of_neg (by simpa using h)]
      cases hT : t.filter (fun r => r.seq == some s) with
      | nil =>
        unfold renderMapStep
        cases hr : r.seq with
        | none => rfl
        | some k =>
          have hk : s ≠ k := fun he => h (by rw [hr, he])
          rw [dictLookup_insert_ne _ _ _ _ hk]
      | cons x xs => rfl

/-! ## Decomposing the sequence-matcher loop -/

lemma seqStep_eq (dmap : List (ℕ × (ℚ × ℤ × ℚ))) (rmap : List (ℕ × (ℚ × ℤ)))
    (acc : SeqAcc) (s : ℕ) :
    seqStep dmap rmap acc s =
      ⟨acc.lags ++ seqLagsFor dmap rmap s,
       acc.matched ++ seqPairsFor dmap rmap s,
       acc.unmatched ++ seqUnmatchedFor dmap rmap s⟩ := by
  unfold seqStep seqLagsFor seqPairsFor seqUnmatchedFor
  cases hd : dictLookup dmap s with
  | none => simp
  | some v =>
    obtain ⟨db, dt, au⟩ := v
    cases hr : dictLookup rmap s with
    | none => simp
    | some w =>
      obtain ⟨rb, rt⟩ := w
      dsimp only
      split_ifs with htol <;> simp

lemma seqFold_decomp (dmap : List (ℕ × (ℚ × ℤ × ℚ))) (rmap : List (ℕ × (ℚ × ℤ)))
    (keys : List ℕ) (acc : SeqAcc) :
    keys.foldl (seqStep dmap rmap) acc =
      ⟨acc.lags ++ keys.flatMap (seqLagsFor dmap rmap),
       acc.matched ++ keys.flatMap (seqPairsFor dmap rmap),
       acc.unmatched ++ keys.flatMap (seqUnmatchedFor dmap rmap)⟩ := by
  induction keys generalizing acc with
  | nil => simp
  | cons s t ih =>
    rw [List.foldl_cons, seqStep_eq, ih]
    simp [List.flatMap_cons, List.append_assoc]

lemma match_by_sequence_lags_eq (dispatches : List DispatchEvent)
    (renders : List RenderEvent) :
    (match_by_sequence dispatches renders).1 =
      (seqSortedKeys dispatches).flatMap
        (seqLagsFor (dispatch_by_seq dispatches) (render_by_seq renders)) := by
  unfold match_by_sequence seqRun
  rw [seqFold_decomp]
  simp

lemma match_by_sequence_matched_eq (dispatches : List DispatchEvent)
    (renders : List RenderEvent) :
    (match_by_sequence dispatches renders).2.1 =
      (seqSortedKeys dispatches).flatMap
        (seqPairsFor (dispatch_by_seq dispatches) (render_by_seq renders)) := by
  unfold match_by_sequence seqRun
  rw [seqFold_decomp]
  simp

lemma match_by_sequence_unmatched_eq (dispatches : List DispatchEvent)
    (renders : List RenderEvent) :
    (match_by_sequence dispatches renders).2.2 =
      (seqSortedKeys dispatches).flatMap
        (seqUnmatchedFor (dispatch_by_seq dispatches) (render_by_seq renders)) := by
  unfold match_by_sequence seqRun
  rw [seqFold_decomp]
  simp

lemma seqSortedKeys_count_one (dispatches : List DispatchEvent) (s : ℕ)
    (h : (dictLookup (dispatch_by_seq dispatches) s).isSome) :
    (seqSortedKeys dispatches).count s = 1 := by
  have hmem : s ∈ dictKeys (dispatch_by_seq dispatches) :=
    (mem_dictKeys_iff _ _).mpr h
  have hperm := List.perm_insertionSort (α := ℕ) (· ≤ ·)
    (dictKeys (dispatch_by_seq dispatches))
  have hnodup : (seqSortedKeys dispatches).Nodup :=
    hperm.nodup_iff.mpr (dispatch_by_seq_keys_nodup dispatches)
  refine List.count_eq_one_of_mem hnodup ?_
  unfold seqSortedKeys
  rw [List.mem_insertionSort]
  exact hmem

lemma not_mem_seqSortedKeys (dispatches : List DispatchEvent) (s : ℕ)
    (h : dictLookup (dispatch_by_seq dispatches) s = none) :
    s ∉ seqSortedKeys dispatches := by
  unfold seqSortedKeys
  rw [List.mem_insertionSort, mem_dictKeys_iff, h]
  simp

/-! ## Correctness of the inner loop of the window matcher -/

/-- Invariant of the inner loop after scanning the indexed render tuples in
`seen`: `none` means nothing eligible was seen; `some b` means `b` is an
eligible element of `seen` with the recorded fields, its score is minimal
among the eligible elements seen, and its index is least among equal-score
eligible elements. -/
def GoodAcc (dTime : ℤ) (dBeat : ℚ) (used : Finset ℕ)
    (seen : List (ℕ × ℤ × ℚ)) : Option Cand → Prop
  | none => ∀ p ∈ seen, ¬ EligP dTime used p
  | some b =>
    (b.idx, b.rTime, b.rBeat) ∈ seen ∧
    EligP dTime used (b.idx, b.rTime, b.rBeat) ∧
    b.timeDiff = b.rTime - dTime ∧
    b.score = scoreOf dTime dBeat (b.rTime, b.rBeat) ∧
    (∀ p ∈ seen, EligP dTime used p → b.score ≤ scoreOf dTime dBeat p.2) ∧
    (∀ p ∈ seen, EligP dTime used p →
      scoreOf dTime dBeat p.2 = b.score → b.idx ≤ p.1)

/-- Extending the seen list by an ineligible element preserves the inner
loop invariant with the accumulator unchanged. -/
lemma goodAcc_extend (dTime : ℤ) (dBeat : ℚ) (used : Finset ℕ)
    (seen : List (ℕ × ℤ × ℚ)) (acc : Option Cand) (p : ℕ × ℤ × ℚ)
    (hacc : GoodAcc dTime dBeat used seen acc)
    (hinelig : ¬ EligP dTime used p) :
    GoodAcc dTime dBeat used (seen ++ [p]) acc := by
  cases acc with
  | none =>
    intro q hq
    rcases List.mem_append.mp hq with h | h
    · exact hacc q h
    · rcases List.mem_singleton.mp h with rfl
      exact hinelig
  | some b =>
    obtain ⟨hmem, helig, htd, hsc, hmin, htie⟩ := hacc
    refine ⟨List.mem_append_left _ hmem, helig, htd, hsc, ?_, ?_⟩
    · intro q hq hel
      rcases List.mem_append.mp hq with h | h
      · exact hmin q h hel
      · rcases List.mem_singleton.mp h with rfl
        exact absurd hel hinelig
    · intro q hq hel hsce
      rcases List.mem_append.mp hq with h | h
      · exact htie q h hel hsce
      · rcases List.mem_singleton.mp h with rfl
        exact absurd hel hinelig

lemma goodAcc_step (dTime : ℤ) (dBeat : ℚ) (used : Finset ℕ)
    (seen : List (ℕ × ℤ × ℚ)) (acc : Option Cand) (p : ℕ × ℤ × ℚ)
    (hacc : GoodAcc dTime dBeat used seen acc)
    (hfresh : ∀ q ∈ seen, q.1 < p.1) :
    GoodAcc dTime dBeat used (seen ++ [p])
      (considerCandidate dTime dBeat used acc p) := by
  obtain ⟨i, rt, rb⟩ := p
  unfold considerCandidate
  by_cases h1 : i ∈ used
  · rw [if_pos h1]
    exact goodAcc_extend dTime dBeat used seen acc _ hacc
      (fun he => he.1 h1)
  rw [if_neg h1]
  by_cases h2 : rt < dTime
  · rw [if_pos h2]
    exact goodAcc_extend dTime dBeat used seen acc _ hacc
      (fun he => absurd he.2.1 (not_le.mpr h2))
  rw [if_neg h2]
  by_cases h3 : MAX_TIME_WINDOW_MS < rt - dTime
  · rw [if_pos h3]
    exact goodAcc_extend dTime dBeat used seen acc _ hacc
      (fun he => absurd he.2.2 (not_le.mpr h3))
  rw [if_neg h3]
  have helig : EligP dTime used (i, rt, rb) :=
    ⟨h1, not_lt.mp h2, not_lt.mp h3⟩
  cases acc with
  | none =>
    dsimp only
    refine ⟨List.mem_append_right _ (List.mem_singleton.mpr rfl), helig,
      rfl, rfl, ?_, ?_⟩
    · intro q hq hel
      rcases List.mem_append.mp hq with hmem | hmem
      · exact absurd hel (hacc q hmem)
      · rcases List.mem_singleton.mp hmem with rfl
        exact le_refl _
    · intro q hq hel hsc
      rcases List.mem_append.mp hq with hmem | hmem
      · exact absurd hel (hacc q hmem)
      · rcases List.mem_singleton.mp hmem with rfl
        exact le_refl _
  | some b =>
    obtain ⟨hmemb, heligb, htdb, hscb, hminb, htieb⟩ := hacc
    dsimp only
    by_cases hs : scoreOf dTime dBeat (rt, rb) < b.score
    · rw [if_pos hs]
      refine ⟨List.mem_append_right _ (List.mem_singleton.mpr rfl), helig,
        rfl, rfl, ?_, ?_⟩
      · intro q hq hel
        rcases List.mem_append.mp hq with hmem | hmem
        · exact le_of_lt (lt_of_lt_of_le hs (hminb q hmem hel))
        · rcases List.mem_singleton.mp hmem with rfl
          exact le_refl _
      · intro q hq hel hsc
        rcases List.mem_append.mp hq with hmem | hmem
        · exact absurd hsc (ne_of_gt (lt_of_lt_of_le hs (hminb q hmem hel)))
        · rcases List.mem_singleton.mp hmem with rfl
          exact le_refl _
    · rw [if_neg hs]
      refine ⟨List.mem_append_left _ hmemb, heligb, htdb, hscb, ?_, ?_⟩
      · intro q hq hel
        rcases List.mem_append.mp hq with hmem | hmem
        · exact hminb q hmem hel
        · rcases List.mem_singleton.mp hmem with rfl
          exact not_lt.mp hs
      · intro q hq hel hsc
        rcases List.mem_append.mp hq with hmem | hmem
        · exact htieb q hmem hel hsc
        · rcases List.mem_singleton.mp hmem with rfl
          exact le_of_lt (hfresh _ hmemb)

lemma goodAcc_foldl (dTime : ℤ) (dBeat : ℚ) (used : Finset ℕ) :
    ∀ (rest seen : List (ℕ × ℤ × ℚ)) (acc : Option Cand),
      GoodAcc dTime dBeat used seen acc →
      (∀ q ∈ seen, ∀ r ∈ rest, q.1 < r.1) →
      rest.Pairwise (fun a b => a.1 < b.1) →
      GoodAcc dTime dBeat used (seen ++ rest)
        (rest.foldl (considerCandidate dTime dBeat used) acc)
  | [], seen, acc, hacc, _, _ => by simpa using hacc
  | p :: rest, seen, acc, hacc, hcross, hpw => by
    rw [List.foldl_cons]
    have hfresh : ∀ q ∈ seen, q.1 < p.1 :=
      fun q hq => hcross q hq p (List.mem_cons_self _ _)
    have hstep := goodAcc_step dTime dBeat used seen acc p hacc hfresh
    have hcross2 : ∀ q ∈ seen ++ [p], ∀ r ∈ rest, q.1 < r.1 := by
      intro q hq r hr
      rcases List.mem_append.mp hq with h | h
      · exact hcross q h r (List.mem_cons_of_mem _ hr)
      · rcases List.mem_singleton.mp h with rfl
        exact (List.pairwise_cons.mp hpw).1 r hr
    have hrec := goodAcc_foldl dTime dBeat used rest (seen ++ [p]) _
      hstep hcross2 (List.pairwise_cons.mp hpw).2
    simpa [List.append_assoc] using hrec

lemma enum_pairwise_fst_lt (renders : List (ℤ × ℚ)) :
    (renders.enum).Pairwise (fun a b => a.1 < b.1) := by
  have h1 : (List.range renders.length).Pairwise (· < ·) :=
    List.pairwise_lt_range _
  rw [← List.enum_map_fst renders] at h1
  exact List.pairwise_map.mp h1

lemma findBest_isBest (dTime : ℤ) (dBeat : ℚ) (renders : List (ℤ × ℚ))
    (used : Finset ℕ) :
    IsBestCandidate renders dTime dBeat used
      (findBest dTime dBeat renders used) := by
  have hgood : GoodAcc dTime dBeat used ([] ++ renders.enum)
      (findBest dTime dBeat renders used) := by
    refine goodAcc_foldl dTime dBeat used renders.enum [] none ?_ ?_
      (enum_pairwise_fst_lt renders)
    · intro p hp
      exact absurd hp (List.not_mem_nil p)
    · intro q hq
      exact absurd hq (List.not_mem_nil q)
  rw [List.nil_append] at hgood
  cases hb : findBest dTime dBeat renders used with
  | none =>
    rw [hb] at hgood
    intro i r hir hel
    exact hgood (i, r) (List.mk_mem_enum_iff_getElem?.mpr hir) hel
  | some b =>
    rw [hb] at hgood
    obtain ⟨hmem, helig, htd, hsc, hmin, htie⟩ := hgood
    refine ⟨List.mk_mem_enum_iff_getElem?.mp hmem, helig, htd, hsc, ?_, ?_⟩
    · intro i r hir hel
      exact hmin (i, r) (List.mk_mem_enum_iff_getElem?.mpr hir) hel
    · intro i r hir hel hsceq
      exact htie (i, r) (List.mk_mem_enum_iff_getElem?.mpr hir) hel hsceq

/-! ## Sortedness of the event lists -/

lemma sortedRenderEvents_pairwise (renders : List RenderEvent) :
    (sortedRenderEvents renders).Pairwise (fun a b => a.1 ≤ b.1) := by
  unfold sortedRenderEvents
  have h := List.sorted_insertionSort rendLe
    (renders.map (fun r => (r.renderTime, r.beat)))
  refine List.Pairwise.imp ?_ h
  intro a b hab
  rcases hab with h1 | ⟨h1, _⟩
  · exact le_of_lt h1
  · exact le_of_eq h1

lemma sortedDispatchEvents_pairwise (dispatches : List DispatchEvent) :
    (sortedDispatchEvents dispatches).Pairwise (fun a b => a.1 ≤ b.1) := by
  unfold sortedDispatchEvents
  have h := List.sorted_insertionSort dispLe
    (dispatches.map (fun d => (d.dispatchTime, d.beat, d.audioTime)))
  refine List.Pairwise.imp ?_ h
  intro a b hab
  rcases hab with h1 | ⟨h1, _⟩
  · exact le_of_lt h1
  · exact le_of_eq h1

lemma fst_le_of_pairwise_getElem {l : List (ℤ × ℚ)}
    (hpw : l.Pairwise (fun a b => a.1 ≤ b.1)) {i j : ℕ} {r r2 : ℤ × ℚ}
    (hi : l[i]? = some r) (hj : l[j]? = some r2) (hij : i ≤ j) :
    r.1 ≤ r2.1 := by
  rcases eq_or_lt_of_le hij with rfl | hlt
  · rw [hi] at hj
    cases hj
    exact le_refl _
  · obtain ⟨hilen, hig⟩ := List.getElem?_eq_some.mp hi
    obtain ⟨hjlen, hjg⟩ := List.getElem?_eq_some.mp hj
    have hpg := List.pairwise_iff_get.mp hpw ⟨i, hilen⟩ ⟨j, hjlen⟩ hlt
    simp only [List.get_eq_getElem, hig, hjg] at hpg
    exact hpg

/-! ## Invariants of the outer loop of the window matcher -/

lemma winStep_used_mono (rs : List (ℤ × ℚ)) (st : WinState) (d : ℤ × ℚ × ℚ) :
    st.used ⊆ (winStep rs st d).used := by
  unfold winStep
  cases hfb : findBest d.1 d.2.1 rs st.used with
  | none => exact fun x hx => hx
  | some b => exact fun x hx => Finset.mem_insert_of_mem hx

lemma winRunFrom_used_mono (rs : List (ℤ × ℚ)) (ds : List (ℤ × ℚ × ℚ))
    (st : WinState) : st.used ⊆ (winRunFrom rs st ds).used := by
  induction ds generalizing st with
  | nil => exact fun x hx => hx
  | cons d t ih =>
    exact fun x hx => ih (winStep rs st d) (winStep_used_mono rs st d hx)

lemma winRunFrom_append (rs : List (ℤ × ℚ)) (st : WinState)
    (l1 l2 : List (ℤ × ℚ × ℚ)) :
    winRunFrom rs st (l1 ++ l2) = winRunFrom rs (winRunFrom rs st l1) l2 := by
  unfold winRunFrom
  rw [List.foldl_append]

lemma winStep_bounds (rs : List (ℤ × ℚ)) (st : WinState) (d : ℤ × ℚ × ℚ)
    (hm : ∀ p ∈ st.matched, p.2.1 ≤ p.2.2.1 ∧ p.2.2.2 = p.2.2.1 - p.2.1 ∧
      0 ≤ p.2.2.2 ∧ p.2.2.2 ≤ MAX_TIME_WINDOW_MS)
    (hl : ∀ l ∈ st.lags, 0 ≤ l ∧ l ≤ MAX_TIME_WINDOW_MS) :
    (∀ p ∈ (winStep rs st d).matched, p.2.1 ≤ p.2.2.1 ∧
      p.2.2.2 = p.2.2.1 - p.2.1 ∧ 0 ≤ p.2.2.2 ∧ p.2.2.2 ≤ MAX_TIME_WINDOW_MS) ∧
    (∀ l ∈ (winStep rs st d).lags, 0 ≤ l ∧ l ≤ MAX_TIME_WINDOW_MS) := by
  have hspec := findBest_isBest d.1 d.2.1 rs st.used
  unfold winStep
  cases hfb : findBest d.1 d.2.1 rs st.used with
  | none => exact ⟨hm, hl⟩
  | some b =>
    rw [hfb] at hspec
    obtain ⟨_, helig, htd, _, _, _⟩ := hspec
    have hge : d.1 ≤ b.rTime := helig.2.1
    have hle : b.rTime - d.1 ≤ MAX_TIME_WINDOW_MS := helig.2.2
    constructor
    · intro p hp
      rcases List.mem_append.mp hp with h | h
      · exact hm p h
      · rcases List.mem_singleton.mp h with rfl
        exact ⟨hge, htd, by rw [htd]; exact sub_nonneg.mpr hge,
          by rw [htd]; exact hle⟩
    · intro l hlm
      rcases List.mem_append.mp hlm with h | h
      · exact hl l h
      · rcases List.mem_singleton.mp h with rfl
        exact ⟨by rw [htd]; exact sub_nonneg.mpr hge, by rw [htd]; exact hle⟩

lemma winRunFrom_bounds (rs : List (ℤ × ℚ)) (ds : List (ℤ × ℚ × ℚ))
    (st : WinState)
    (hm : ∀ p ∈ st.matched, p.2.1 ≤ p.2.2.1 ∧ p.2.2.2 = p.2.2.1 - p.2.1 ∧
      0 ≤ p.2.2.2 ∧ p.2.2.2 ≤ MAX_TIME_WINDOW_MS)
    (hl : ∀ l ∈ st.lags, 0 ≤ l ∧ l ≤ MAX_TIME_WINDOW_MS) :
    (∀ p ∈ (winRunFrom rs st ds).matched, p.2.1 ≤ p.2.2.1 ∧
      p.2.2.2 = p.2.2.1 - p.2.1 ∧ 0 ≤ p.2.2.2 ∧ p.2.2.2 ≤ MAX_TIME_WINDOW_MS) ∧
    (∀ l ∈ (winRunFrom rs st ds).lags, 0 ≤ l ∧ l ≤ MAX_TIME_WINDOW_MS) := by
  induction ds generalizing st with
  | nil => exact ⟨hm, hl⟩
  | cons d t ih =>
    have hnext := winStep_bounds rs st d hm hl
    exact ih (winStep rs st d) hnext.1 hnext.2

lemma take_of_double_split {α : Type} (l pre1 pre2 : List α) (d1 d2 : α)
    (suf1 suf2 : List α) (h1 : l = pre1 ++ d1 :: suf1)
    (h2 : l = pre2 ++ d2 :: suf2) (hlt : pre1.length < pre2.length) :
    ∃ mid, pre2 = (pre1 ++ [d1]) ++ mid := by
  refine ⟨pre2.drop (pre1.length + 1), ?_⟩
  have hp1 : l.take (pre1.length + 1) = pre1 ++ [d1] := by
    rw [h1, List.take_append_eq_append_take]
    simp
  have hp2 : l.take pre2.length = pre2 := by
    rw [h2, List.take_append_eq_append_take]
    simp
  have hk : pre1.length + 1 ≤ pre2.length := hlt
  have hpre : pre2.take (pre1.length + 1) = pre1 ++ [d1] := by
    rw [← hp2, List.take_take, min_eq_left hk, hp1]
  rw [← hpre, List.take_append_drop]

/-! ## Bucket counting lemmas -/

lemma bucket_sum_cons (a : ℤ) (t : List ℤ) :
    excellentCount (a :: t) + goodCount (a :: t) + acceptableCount (a :: t)
      + poorCount (a :: t) + negativeCount (a :: t)
    = (excellentCount t + goodCount t + acceptableCount t + poorCount t
        + negativeCount t) + 1 := by
  simp only [excellentCount, goodCount, acceptableCount, poorCount,
    negativeCount, List.countP_cons]
  have hone : (if isExcellent a then 1 else 0) + (if isGood a then 1 else 0) +
      (if isAcceptable a then 1 else 0) + (if isPoor a then 1 else 0) +
      (if isNegative a then 1 else 0) = 1 := by
    simp only [isExcellent, isGood, isAcceptable, isPoor, isNegative,
      decide_eq_true_eq]
    split_ifs <;> omega
  omega

lemma bucket_sum_eq_length (lags : List ℤ) :
    excellentCount lags + goodCount lags + acceptableCount lags
      + poorCount lags + negativeCount lags = lags.length := by
  induction lags with
  | nil => rfl
  | cons a t ih =>
    rw [bucket_sum_cons, ih, List.length_cons]

/-! ## Claim theorems for the sequence matcher, statistics and driver -/

/-- Claim C2, counterexample: a sequence-matcher run producing the single
lag `-10` (render at 90 for a dispatch at 100, same beat, same id) has a
non-empty lag list, yet the four histogram buckets of the code
(`0 <= lag < 16`, `[16,50)`, `[50,100)`, `>= 100`) together count `0` of
its `1` element, so the four buckets do not partition the lags: a negative
lag falls into no bucket, contradicting the claim. -/
theorem bucket_partition_counterexample :
    (match_by_sequence [⟨1, 0, 100, some 1⟩] [⟨1, 90, some 1⟩]).1 ≠ [] ∧
    excellentCount (match_by_sequence [⟨1, 0, 100, some 1⟩] [⟨1, 90, some 1⟩]).1 +
      goodCount (match_by_sequence [⟨1, 0, 100, some 1⟩] [⟨1, 90, some 1⟩]).1 +
      acceptableCount (match_by_sequence [⟨1, 0, 100, some 1⟩] [⟨1, 90, some 1⟩]).1 +
      poorCount (match_by_sequence [⟨1, 0, 100, some 1⟩] [⟨1, 90, some 1⟩]).1 ≠
      ((match_by_sequence [⟨1, 0, 100, some 1⟩] [⟨1, 90, some 1⟩]).1).length :=
  of_decide_eq_true (by with_unfolding_all rfl)

/-- Claim C2, amended: every nonnegative lag falls into exactly one of the
four buckets (`[0,16)`, `[16,50)`, `[50,100)`, `>= 100`); a negative lag
falls into none of them and is counted separately, so the sum of the four
bucket counts plus the negative count equals the total number of lags. -/
theorem bucket_partition_amended (lags : List ℤ) (l : ℤ)
    (_hl : l ∈ lags) (h0 : 0 ≤ l) :
    excellentCount lags + goodCount lags + acceptableCount lags
      + poorCount lags + negativeCount lags = lags.length ∧
    bucketCountFor l = 1 := by
  refine ⟨bucket_sum_eq_length lags, ?_⟩
  unfold bucketCountFor
  simp only [isExcellent, isGood, isAcceptable, isPoor, decide_eq_true_eq]
  split_ifs <;> omega

/-- Witness for the amended C2 at the concrete lag list `[-10, 5]` and the
nonnegative member `5`. -/
theorem bucket_partition_amended_witness :
    excellentCount [-10, 5] + goodCount [-10, 5] + acceptableCount [-10, 5]
      + poorCount [-10, 5] + negativeCount [-10, 5] = ([-10, 5] : List ℤ).length ∧
    bucketCountFor 5 = 1 :=
  bucket_partition_amended [-10, 5] 5 (by decide) (by decide)

/-- Claim C7: the sequence-id maps are last-write-wins.  Looking up an id in
`dispatch_by_seq` (resp. `render_by_seq`) returns exactly the fields of the
last event in the extracted list that carries that id, so a later duplicate
silently overwrites an earlier one and only the later event's fields can
reach the matcher's output, which reads the events through these maps. -/
theorem seq_map_last_write_wins (dispatches : List DispatchEvent)
    (renders : List RenderEvent) (s : ℕ) :
    dictLookup (dispatch_by_seq dispatches) s =
      ((dispatches.filter (fun d => d.seq == some s)).getLast?).map
        (fun d => (d.beat, d.dispatchTime, d.audioTime)) ∧
    dictLookup (render_by_seq renders) s =
      ((renders.filter (fun r => r.seq == some s)).getLast?).map
        (fun r => (r.beat, r.renderTime)) ∧
    (match_by_sequence dispatches renders).2.1 =
      (seqSortedKeys dispatches).flatMap
        (seqPairsFor (dispatch_by_seq dispatches) (render_by_seq renders)) := by
  refine ⟨?_, ?_, match_by_sequence_matched_eq dispatches renders⟩
  · rw [dispatch_by_seq, dispatch_by_seq_lookup_aux]
    cases (dispatches.filter (fun d => d.seq == some s)).getLast? with
    | none => rfl
    | some d => rfl
  · rw [render_by_seq, render_by_seq_lookup_aux]
    cases (renders.filter (fun r => r.seq == some s)).getLast? with
    | none => rfl
    | some r => rfl

/-- Claim C5: for a sequence id present in both maps whose key attributes
agree within the tolerance, the sequence matcher emits exactly one matched
pair for that id, with lag `render_time - dispatch_time`: the id occurs
exactly once in the iterated key list, the pairs it contributes are the
single pair `(beat, dispatch_time, render_time, lag)`, and the whole
matched output is the concatenation of the per-id contributions. -/
theorem seq_matcher_exact_join_sound (dispatches : List DispatchEvent)
    (renders : List RenderEvent) (s : ℕ) (db : ℚ) (dt : ℤ) (au : ℚ)
    (rb : ℚ) (rt : ℤ)
    (hd : dictLookup (dispatch_by_seq dispatches) s = some (db, dt, au))
    (hr : dictLookup (render_by_seq renders) s = some (rb, rt))
    (htol : qabs (db - rb) < 1/100) :
    seqPairsFor (dispatch_by_seq dispatches) (render_by_seq renders) s =
      [(db, dt, rt, rt - dt)] ∧
    (seqSortedKeys dispatches).count s = 1 ∧
    (match_by_sequence dispatches renders).2.1 =
      (seqSortedKeys dispatches).flatMap
        (seqPairsFor (dispatch_by_seq dispatches) (render_by_seq renders)) := by
  refine ⟨?_, seqSortedKeys_count_one _ _ (by rw [hd]; rfl),
    match_by_sequence_matched_eq _ _⟩
  unfold seqPairsFor
  rw [hd, hr]
  dsimp only
  rw [if_pos htol]

/-- Witness for C5: one dispatch and one render with id `0`, equal beats,
times 100 and 110. -/
theorem seq_matcher_exact_join_sound_witness :
    seqPairsFor (dispatch_by_seq [⟨1, 0, 100, some 0⟩])
        (render_by_seq [⟨1, 110, some 0⟩]) 0 = [(1, 100, 110, 110 - 100)] ∧
    (seqSortedKeys [⟨1, 0, 100, some 0⟩]).count 0 = 1 ∧
    (match_by_sequence [⟨1, 0, 100, some 0⟩] [⟨1, 110, some 0⟩]).2.1 =
      (seqSortedKeys [⟨1, 0, 100, some 0⟩]).flatMap
        (seqPairsFor (dispatch_by_seq [⟨1, 0, 100, some 0⟩])
          (render_by_seq [⟨1, 110, some 0⟩])) :=
  seq_matcher_exact_join_sound [⟨1, 0, 100, some 0⟩] [⟨1, 110, some 0⟩]
    0 1 100 0 1 110 rfl rfl (of_decide_eq_true (by with_unfolding_all rfl))

/-- Claim C6: a dispatch id absent from the render map contributes exactly
one unmatched dispatch and no pair; the id occurs exactly once in the
iterated key list; both output lists are the concatenations of the per-id
contributions; and an id absent from the dispatch map (e.g. present only
among the renders) is not iterated at all, so it generates no output. -/
theorem seq_matcher_exact_join_complete (dispatches : List DispatchEvent)
    (renders : List RenderEvent) (s sOnly : ℕ) (db : ℚ) (dt : ℤ) (au : ℚ)
    (hd : dictLookup (dispatch_by_seq dispatches) s = some (db, dt, au))
    (hr : dictLookup (render_by_seq renders) s = none)
    (honly : dictLookup (dispatch_by_seq dispatches) sOnly = none) :
    seqUnmatchedFor (dispatch_by_seq dispatches) (render_by_seq renders) s =
      [(db, dt)] ∧
    seqPairsFor (dispatch_by_seq dispatches) (render_by_seq renders) s = [] ∧
    (seqSortedKeys dispatches).count s = 1 ∧
    (match_by_sequence dispatches renders).2.2 =
      (seqSortedKeys dispatches).flatMap
        (seqUnmatchedFor (dispatch_by_seq dispatches) (render_by_seq renders)) ∧
    (match_by_sequence dispatches renders).2.1 =
      (seqSortedKeys dispatches).flatMap
        (seqPairsFor (dispatch_by_seq dispatches) (render_by_seq renders)) ∧
    sOnly ∉ seqSortedKeys dispatches := by
  refine ⟨?_, ?_, seqSortedKeys_count_one _ _ (by rw [hd]; rfl),
    match_by_sequence_unmatched_eq _ _, match_by_sequence_matched_eq _ _,
    not_mem_seqSortedKeys _ _ honly⟩
  · unfold seqUnmatchedFor
    rw [hd, hr]
  · unfold seqPairsFor
    rw [hd, hr]

/-- Witness for C6: one dispatch with id `0`, one render with id `7` only. -/
theorem seq_matcher_exact_join_complete_witness :
    seqUnmatchedFor (dispatch_by_seq [⟨1, 0, 100, some 0⟩])
        (render_by_seq [⟨2, 110, some 7⟩]) 0 = [(1, 100)] ∧
    seqPairsFor (dispatch_by_seq [⟨1, 0, 100, some 0⟩])
        (render_by_seq [⟨2, 110, some 7⟩]) 0 = [] ∧
    (seqSortedKeys [⟨1, 0, 100, some 0⟩]).count 0 = 1 ∧
    (match_by_sequence [⟨1, 0, 100, some 0⟩] [⟨2, 110, some 7⟩]).2.2 =
      (seqSortedKeys [⟨1, 0, 100, some 0⟩]).flatMap
        (seqUnmatchedFor (dispatch_by_seq [⟨1, 0, 100, some 0⟩])
          (render_by_seq [⟨2, 110, some 7⟩])) ∧
    (match_by_sequence [⟨1, 0, 100, some 0⟩] [⟨2, 110, some 7⟩]).2.1 =
      (seqSortedKeys [⟨1, 0, 100, some 0⟩]).flatMap
        (seqPairsFor (dispatch_by_seq [⟨1, 0, 100, some 0⟩])
          (render_by_seq [⟨2, 110, some 7⟩])) ∧
    7 ∉ seqSortedKeys [⟨1, 0, 100, some 0⟩] :=
  seq_matcher_exact_join_complete [⟨1, 0, 100, some 0⟩] [⟨2, 110, some 7⟩]
    0 7 1 100 0 rfl rfl rfl

/-- Claim C10: a sequence id present in both maps whose key attributes do
not agree within the tolerance is silently dropped: it contributes neither
a pair nor an unmatched dispatch nor a lag, and each output list of the run
is exactly the concatenation of per-id contributions, so the dropped
dispatch leaves no trace in any output or statistic. -/
theorem seq_matcher_silent_drop (dispatches : List DispatchEvent)
    (renders : List RenderEvent) (s : ℕ) (db : ℚ) (dt : ℤ) (au : ℚ)
    (rb : ℚ) (rt : ℤ)
    (hd : dictLookup (dispatch_by_seq dispatches) s = some (db, dt, au))
    (hr : dictLookup (render_by_seq renders) s = some (rb, rt))
    (htol : ¬ qabs (db - rb) < 1/100) :
    seqPairsFor (dispatch_by_seq dispatches) (render_by_seq renders) s = [] ∧
    seqUnmatchedFor (dispatch_by_seq dispatches) (render_by_seq renders) s = [] ∧
    seqLagsFor (dispatch_by_seq dispatches) (render_by_seq renders) s = [] ∧
    (match_by_sequence dispatches renders).2.1 =
      (seqSortedKeys dispatches).flatMap
        (seqPairsFor (dispatch_by_seq dispatches) (render_by_seq renders)) ∧
    (match_by_sequence dispatches renders).2.2 =
      (seqSortedKeys dispatches).flatMap
        (seqUnmatchedFor (dispatch_by_seq dispatches) (render_by_seq renders)) ∧
    (match_by_sequence dispatches renders).1 =
      (seqSortedKeys dispatches).flatMap
        (seqLagsFor (dispatch_by_seq dispatches) (render_by_seq renders)) := by
  have hpairs : seqPairsFor (dispatch_by_seq dispatches) (render_by_seq renders) s = [] := by
    unfold seqPairsFor
    rw [hd, hr]
    dsimp only
    rw [if_neg htol]
  refine ⟨hpairs, ?_, ?_, match_by_sequence_matched_eq _ _,
    match_by_sequence_unmatched_eq _ _, match_by_sequence_lags_eq _ _⟩
  · unfold seqUnmatchedFor
    rw [hd, hr]
  · unfold seqLagsFor
    rw [hpairs]
    rfl

/-- Witness for C10: beats `1` and `2` differ by `1 >= 0.01`. -/
theorem seq_matcher_silent_drop_witness :
    seqPairsFor (dispatch_by_seq [⟨1, 0, 100, some 0⟩])
        (render_by_seq [⟨2, 110, some 0⟩]) 0 = [] ∧
    seqUnmatchedFor (dispatch_by_seq [⟨1, 0, 100, some 0⟩])
        (render_by_seq [⟨2, 110, some 0⟩]) 0 = [] ∧
    seqLagsFor (dispatch_by_seq [⟨1, 0, 100, some 0⟩])
        (render_by_seq [⟨2, 110, some 0⟩]) 0 = [] ∧
    (match_by_sequence [⟨1, 0, 100, some 0⟩] [⟨2, 110, some 0⟩]).2.1 =
      (seqSortedKeys [⟨1, 0, 100, some 0⟩]).flatMap
        (seqPairsFor (dispatch_by_seq [⟨1, 0, 100, some 0⟩])
          (render_by_seq [⟨2, 110, some 0⟩])) ∧
    (match_by_sequence [⟨1, 0, 100, some 0⟩] [⟨2, 110, some 0⟩]).2.2 =
      (seqSortedKeys [⟨1, 0, 100, some 0⟩]).flatMap
        (seqUnmatchedFor (dispatch_by_seq [⟨1, 0, 100, some 0⟩])
          (render_by_seq [⟨2, 110, some 0⟩])) ∧
    (match_by_sequence [⟨1, 0, 100, some 0⟩] [⟨2, 110, some 0⟩]).1 =
      (seqSortedKeys [⟨1, 0, 100, some 0⟩]).flatMap
        (seqLagsFor (dispatch_by_seq [⟨1, 0, 100, some 0⟩])
          (render_by_seq [⟨2, 110, some 0⟩])) :=
  seq_matcher_silent_drop [⟨1, 0, 100, some 0⟩] [⟨2, 110, some 0⟩]
    0 1 100 0 2 110 rfl rfl (of_decide_eq_true (by with_unfolding_all rfl))

/-- Claim C8: when zero dispatch events or zero render events were
extracted, the analysis stops on the empty-stream path: the result is one
of the two empty-stream outcomes and in particular never a statistics
report, so no matching output and no statistics are produced. -/
theorem emptyStream_halts_analysis (dispatches : List DispatchEvent)
    (renders : List RenderEvent) (h : dispatches = [] ∨ renders = []) :
    (parse_cursor_logs_core dispatches renders = .emptyDispatches ∨
      parse_cursor_logs_core dispatches renders = .emptyRenders) ∧
    parse_cursor_logs_core dispatches renders ≠ .noMatches ∧
    ∀ lags matched unmatched stats,
      parse_cursor_logs_core dispatches renders ≠
        .report lags matched unmatched stats := by
  have hcase : parse_cursor_logs_core dispatches renders = .emptyDispatches ∨
      parse_cursor_logs_core dispatches renders = .emptyRenders := by
    rcases h with h | h
    · subst h
      exact Or.inl rfl
    · subst h
      cases dispatches with
      | nil => exact Or.inl rfl
      | cons d ds => exact Or.inr rfl
  refine ⟨hcase, ?_, ?_⟩
  · rcases hcase with hc | hc <;> rw [hc] <;> intro hcon <;> cases hcon
  · intro lags matched unmatched stats
    rcases hcase with hc | hc <;> rw [hc] <;> intro hcon <;> cases hcon

/-- Witness for C8: no dispatch events at all, one render event. -/
theorem emptyStream_halts_analysis_witness :
    (parse_cursor_logs_core [] [⟨1, 90, some 1⟩] = .emptyDispatches ∨
      parse_cursor_logs_core [] [⟨1, 90, some 1⟩] = .emptyRenders) ∧
    parse_cursor_logs_core [] [⟨1, 90, some 1⟩] ≠ .noMatches ∧
    ∀ lags matched unmatched stats,
      parse_cursor_logs_core [] [⟨1, 90, some 1⟩] ≠
        .report lags matched unmatched stats :=
  emptyStream_halts_analysis [] [⟨1, 90, some 1⟩] (Or.inl rfl)

/-- Claim C9: the matching strategy depends only on the first extracted
dispatch event: it is unchanged by replacing the tail of the dispatch list,
the sequence matcher is chosen exactly when the first dispatch carries a
sequence id, and the driver runs the sequence matcher or the window matcher
accordingly - in particular, when the first dispatch has no sequence id the
window matcher is used for all events, whatever ids later events carry. -/
theorem strategy_first_dispatch_only (d0 : DispatchEvent)
    (ds ds' : List DispatchEvent) (rs : List RenderEvent) :
    chooseStrategy (d0 :: ds) = chooseStrategy (d0 :: ds') ∧
    (chooseStrategy (d0 :: ds) = Strategy.sequence ↔ d0.seq.isSome = true) ∧
    runMatcher (d0 :: ds) rs =
      (if d0.seq.isSome then match_by_sequence (d0 :: ds) rs
       else match_by_timestamp_improved (d0 :: ds) rs) := by
  refine ⟨rfl, ?_, ?_⟩
  · cases h : d0.seq.isSome <;> simp [chooseStrategy, h]
  · cases h : d0.seq.isSome <;> simp [chooseStrategy, runMatcher, h]

/-! ## Claim theorems for the window matcher -/

/-- Claim C1: both event lists are iterated in ascending timestamp order
(sorted by the tuple order, hence nondecreasing timestamps), and at each
dispatch of the run (any split `pre ++ d :: suf` of the sorted dispatch
list) the inner loop returns exactly the best candidate: an unconsumed
render in the causality window of at most 200 ms, scored as
`elapsed + 50 * |beat difference|`, of minimal score, first found under
ascending iteration (least index and, by sortedness, earliest render
timestamp among equal scores); the step that records the pair is the fold
step of the run. -/
theorem win_matcher_selection_rule (dispatches : List DispatchEvent)
    (renders : List RenderEvent) (pre suf : List (ℤ × ℚ × ℚ))
    (d : ℤ × ℚ × ℚ)
    (_hsplit : sortedDispatchEvents dispatches = pre ++ d :: suf) :
    (sortedRenderEvents renders).Pairwise (fun a b => a.1 ≤ b.1) ∧
    (sortedDispatchEvents dispatches).Pairwise (fun a b => a.1 ≤ b.1) ∧
    IsBestCandidate (sortedRenderEvents renders) d.1 d.2.1
      (winRun (sortedRenderEvents renders) pre).used
      (findBest d.1 d.2.1 (sortedRenderEvents renders)
        (winRun (sortedRenderEvents renders) pre).used) ∧
    (∀ b, findBest d.1 d.2.1 (sortedRenderEvents renders)
        (winRun (sortedRenderEvents renders) pre).used = some b →
      ∀ i r, (sortedRenderEvents renders)[i]? = some r →
        EligP d.1 (winRun (sortedRenderEvents renders) pre).used (i, r) →
        scoreOf d.1 d.2.1 r = b.score → b.rTime ≤ r.1) ∧
    winRun (sortedRenderEvents renders) (pre ++ [d]) =
      winStep (sortedRenderEvents renders)
        (winRun (sortedRenderEvents renders) pre) d := by
  refine ⟨sortedRenderEvents_pairwise renders,
    sortedDispatchEvents_pairwise dispatches, findBest_isBest _ _ _ _, ?_,
    by rw [winRun, winRunFrom_append]; rfl⟩
  intro b hb i r hir hel hsc
  have hspec := findBest_isBest d.1 d.2.1 (sortedRenderEvents renders)
    (winRun (sortedRenderEvents renders) pre).used
  rw [hb] at hspec
  obtain ⟨hmem, _, _, _, _, htie⟩ := hspec
  exact fst_le_of_pairwise_getElem (sortedRenderEvents_pairwise renders)
    hmem hir (htie i r hir hel hsc)

/-- Witness for C1: the single dispatch at time 100 against renders at 150
and 500 (the second is outside the window). -/
theorem win_matcher_selection_rule_witness :
    (sortedRenderEvents [⟨1, 150, none⟩, ⟨1, 500, none⟩]).Pairwise
      (fun a b => a.1 ≤ b.1) ∧
    (sortedDispatchEvents [⟨1, 0, 100, none⟩]).Pairwise
      (fun a b => a.1 ≤ b.1) ∧
    IsBestCandidate (sortedRenderEvents [⟨1, 150, none⟩, ⟨1, 500, none⟩])
      ((100 : ℤ), (1 : ℚ), (0 : ℚ)).1 ((100 : ℤ), (1 : ℚ), (0 : ℚ)).2.1
      (winRun (sortedRenderEvents [⟨1, 150, none⟩, ⟨1, 500, none⟩]) []).used
      (findBest ((100 : ℤ), (1 : ℚ), (0 : ℚ)).1
        ((100 : ℤ), (1 : ℚ), (0 : ℚ)).2.1
        (sortedRenderEvents [⟨1, 150, none⟩, ⟨1, 500, none⟩])
        (winRun (sortedRenderEvents [⟨1, 150, none⟩, ⟨1, 500, none⟩]) []).used) ∧
    (∀ b, findBest ((100 : ℤ), (1 : ℚ), (0 : ℚ)).1
        ((100 : ℤ), (1 : ℚ), (0 : ℚ)).2.1
        (sortedRenderEvents [⟨1, 150, none⟩, ⟨1, 500, none⟩])
        (winRun (sortedRenderEvents [⟨1, 150, none⟩, ⟨1, 500, none⟩]) []).used
          = some b →
      ∀ i r, (sortedRenderEvents [⟨1, 150, none⟩, ⟨1, 500, none⟩])[i]? = some r →
        EligP ((100 : ℤ), (1 : ℚ), (0 : ℚ)).1
          (winRun (sortedRenderEvents [⟨1, 150, none⟩, ⟨1, 500, none⟩]) []).used
          (i, r) →
        scoreOf ((100 : ℤ), (1 : ℚ), (0 : ℚ)).1
          ((100 : ℤ), (1 : ℚ), (0 : ℚ)).2.1 r = b.score → b.rTime ≤ r.1) ∧
    winRun (sortedRenderEvents [⟨1, 150, none⟩, ⟨1, 500, none⟩])
        ([] ++ [((100 : ℤ), (1 : ℚ), (0 : ℚ))]) =
      winStep (sortedRenderEvents [⟨1, 150, none⟩, ⟨1, 500, none⟩])
        (winRun (sortedRenderEvents [⟨1, 150, none⟩, ⟨1, 500, none⟩]) [])
        ((100 : ℤ), (1 : ℚ), (0 : ℚ)) :=
  win_matcher_selection_rule [⟨1, 0, 100, none⟩] [⟨1, 150, none⟩, ⟨1, 500, none⟩]
    [] [] ((100 : ℤ), (1 : ℚ), (0 : ℚ)) rfl

/-- Claim C3: every matched pair `(beat, d_time, r_time, lag)` produced by
the window matcher satisfies `d_time <= r_time`, `lag = r_time - d_time`,
`0 <= lag` and `lag <= 200 ms`, for any input lists. -/
theorem win_matcher_lag_bounds (dispatches : List DispatchEvent)
    (renders : List RenderEvent) (p : ℚ × ℤ × ℤ × ℤ)
    (hp : p ∈ (match_by_timestamp_improved dispatches renders).2.1) :
    p.2.1 ≤ p.2.2.1 ∧ p.2.2.2 = p.2.2.1 - p.2.1 ∧ 0 ≤ p.2.2.2 ∧
      p.2.2.2 ≤ MAX_TIME_WINDOW_MS := by
  have h := winRunFrom_bounds (sortedRenderEvents renders)
    (sortedDispatchEvents dispatches) winInit
    (by intro q hq; cases hq) (by intro l hl; cases hl)
  exact h.1 p hp

/-- Witness for C3 at the matched pair of a one-dispatch run. -/
theorem win_matcher_lag_bounds_witness :
    ((1 : ℚ), (100 : ℤ), (150 : ℤ), (50 : ℤ)).2.1 ≤
      ((1 : ℚ), (100 : ℤ), (150 : ℤ), (50 : ℤ)).2.2.1 ∧
    ((1 : ℚ), (100 : ℤ), (150 : ℤ), (50 : ℤ)).2.2.2 =
      ((1 : ℚ), (100 : ℤ), (150 : ℤ), (50 : ℤ)).2.2.1 -
        ((1 : ℚ), (100 : ℤ), (150 : ℤ), (50 : ℤ)).2.1 ∧
    0 ≤ ((1 : ℚ), (100 : ℤ), (150 : ℤ), (50 : ℤ)).2.2.2 ∧
    ((1 : ℚ), (100 : ℤ), (150 : ℤ), (50 : ℤ)).2.2.2 ≤ MAX_TIME_WINDOW_MS :=
  win_matcher_lag_bounds [⟨1, 0, 100, none⟩] [⟨1, 150, none⟩]
    ((1 : ℚ), (100 : ℤ), (150 : ℤ), (50 : ℤ))
    (of_decide_eq_true (by with_unfolding_all rfl))

/-- Claim C4: one-to-one render consumption.  If the dispatches at two
positions of the sorted dispatch list (the earlier one after prefix `pre1`,
the later one after prefix `pre2`) both obtain a best candidate, then the
render index chosen for the earlier dispatch is already in the consumed set
when the later dispatch is processed, and the two chosen render indices
differ - so no render index is ever assigned to two dispatches. -/
theorem win_matcher_one_to_one (dispatches : List DispatchEvent)
    (renders : List RenderEvent)
    (pre1 pre2 suf1 suf2 : List (ℤ × ℚ × ℚ)) (d1 d2 : ℤ × ℚ × ℚ)
    (h1 : sortedDispatchEvents dispatches = pre1 ++ d1 :: suf1)
    (h2 : sortedDispatchEvents dispatches = pre2 ++ d2 :: suf2)
    (hlt : pre1.length < pre2.length) (b1 b2 : Cand)
    (hb1 : findBest d1.1 d1.2.1 (sortedRenderEvents renders)
      (winRun (sortedRenderEvents renders) pre1).used = some b1)
    (hb2 : findBest d2.1 d2.2.1 (sortedRenderEvents renders)
      (winRun (sortedRenderEvents renders) pre2).used = some b2) :
    b1.idx ∈ (winRun (sortedRenderEvents renders) pre2).used ∧
      b1.idx ≠ b2.idx := by
  obtain ⟨mid, hmid⟩ :=
    take_of_double_split _ pre1 pre2 d1 d2 suf1 suf2 h1 h2 hlt
  have hstep : b1.idx ∈
      (winRun (sortedRenderEvents renders) (pre1 ++ [d1])).used := by
    rw [winRun, winRunFrom_append]
    show b1.idx ∈ (winStep (sortedRenderEvents renders)
      (winRun (sortedRenderEvents renders) pre1) d1).used
    unfold winStep
    rw [hb1]
    exact Finset.mem_insert_self _ _
  have hpre2 : winRun (sortedRenderEvents renders) pre2 =
      winRunFrom (sortedRenderEvents renders)
        (winRun (sortedRenderEvents renders) (pre1 ++ [d1])) mid := by
    rw [hmid]
    exact winRunFrom_append _ _ _ _
  have hsub : (winRun (sortedRenderEvents renders) (pre1 ++ [d1])).used ⊆
      (winRun (sortedRenderEvents renders) pre2).used := by
    rw [hpre2]
    exact winRunFrom_used_mono _ _ _
  have hb1in := hsub hstep
  have hspec := findBest_isBest d2.1 d2.2.1 (sortedRenderEvents renders)
    (winRun (sortedRenderEvents renders) pre2).used
  rw [hb2] at hspec
  obtain ⟨_, helig, _⟩ := hspec
  exact ⟨hb1in, fun he => helig.1 (he ▸ hb1in)⟩

/-- Witness for C4: two dispatches at 100 and 120, two renders at 110 and
130; the first dispatch takes render index 0, the second index 1. -/
theorem win_matcher_one_to_one_witness :
    (Cand.mk 0 110 1 10 10).idx ∈
      (winRun (sortedRenderEvents [⟨1, 110, none⟩, ⟨1, 130, none⟩])
        [((100 : ℤ), (1 : ℚ), (0 : ℚ))]).used ∧
    (Cand.mk 0 110 1 10 10).idx ≠ (Cand.mk 1 130 1 10 10).idx :=
  win_matcher_one_to_one [⟨1, 0, 100, none⟩, ⟨1, 0, 120, none⟩]
    [⟨1, 110, none⟩, ⟨1, 130, none⟩]
    [] [((100 : ℤ), (1 : ℚ), (0 : ℚ))] [((120 : ℤ), (1 : ℚ), (0 : ℚ))] []
    ((100 : ℤ), (1 : ℚ), (0 : ℚ)) ((120 : ℤ), (1 : ℚ), (0 : ℚ))
    (by with_unfolding_all rfl) (by with_unfolding_all rfl) (by decide)
    (Cand.mk 0 110 1 10 10) (Cand.mk 1 130 1 10 10)
    (of_decide_eq_true (by with_unfolding_all rfl))
    (of_decide_eq_true (by with_unfolding_all rfl))

end AnalyzeLag
